import Mathlib

/-!
Verification of the override-resolution core of `react-overridable`.

The model is a shallow embedding of `src/overridable.js`, `src/store.js` and
the `Expandable` marker. JavaScript objects (props, registries) are modelled
as association lists where a later binding shadows an earlier one, so that
object spread `\x7b...a, ...b\x7d` is list append. React elements are a small
inductive of component value plus props. Functions that may throw return
`Except`. The mutable store is modelled with an explicit heap of arrays so
that the aliasing behaviour of `getAll`'s shallow copy is captured.
-/

set_option autoImplicit false

/-- Component values: a primitive component, or a wrapper produced by
`Overridable.component(id, orig)`, which carries the `originalComponent`
back-reference to `orig`. -/
inductive CompVal (C : Type) where
  | plain : C → CompVal C
  | wrapped : String → CompVal C → CompVal C
deriving DecidableEq

/-- The `originalComponent` attribute: present exactly on wrappers made by
`Overridable.component`. -/
def originalComponent {C : Type} : CompVal C → Option (CompVal C)
  | .plain _ => none
  | .wrapped _ orig => some orig

mutual
/-- A JavaScript value as far as props are concerned: numbers, strings,
`null`, a single React element, or an array of React elements. -/
inductive Value (C : Type) where
  | num : Int → Value C
  | str : String → Value C
  | vnull : Value C
  | node : Element C → Value C
  | nodeList : List (Element C) → Value C

/-- A React element: a component value together with its props object. -/
inductive Element (C : Type) where
  | mk : CompVal C → List (String × Value C) → Element C
end

/-- A props object, in insertion order; a later binding wins. -/
abbrev Props (C : Type) := List (String × Value C)

/-- The component of an element. -/
def Element.comp {C : Type} : Element C → CompVal C
  | .mk c _ => c

/-- The props of an element. -/
def Element.props {C : Type} : Element C → Props C
  | .mk _ p => p

/-- Property lookup with JavaScript object-literal semantics: the LAST
binding of a key wins (object spread overwrites earlier keys). -/
def getProp {C : Type} : Props C → String → Option (Value C)
  | [], _ => none
  | (k', v) :: rest, k =>
    match getProp rest k with
    | some w => some w
    | none => if k = k' then some v else none

/-- Object spread `\x7b...a, ...b\x7d`: keys of `b` win on collision. -/
def mergeProps {C : Type} (a b : Props C) : Props C := a ++ b

/-- The choice made by an overriding merge: the new value when present,
otherwise the fallback. -/
def overrideOpt {α : Type} (fallback new : Option α) : Option α :=
  match new with
  | some v => some v
  | none => fallback

/-- Removing a key, as rest-destructuring `\x7bchildren, ...attrProps\x7d` does. -/
def removeKey {C : Type} (p : Props C) (k : String) : Props C :=
  p.filter (fun kv => kv.1 != k)

/-- JavaScript truthiness of a value. -/
def truthy {C : Type} : Value C → Bool
  | .num n => n != 0
  | .str s => s != ""
  | .vnull => false
  | .node _ => true
  | .nodeList _ => true

/-- Errors a render can throw. `multipleChildren` is the error of
`React.Children.only`; `mapNotAFunction` is the TypeError raised when
`overrides.map` is called on a non-array registry entry. -/
inductive RenderError where
  | multipleChildren
  | mapNotAFunction
deriving DecidableEq

/-- `React.Children.only`: succeeds exactly on a single element (an array of
children, even a singleton, throws). -/
def childrenOnly {C : Type} : Value C → Except RenderError (Element C)
  | .node e => .ok e
  | .num _ => .error .multipleChildren
  | .str _ => .error .multipleChildren
  | .vnull => .error .multipleChildren
  | .nodeList _ => .error .multipleChildren

/-- First-match lookup in an association list (a JavaScript object holds one
value per key, so first match is the value). -/
def assocGet {α : Type} : List (String × α) → String → Option α
  | [], _ => none
  | (k', v) :: rest, k => if k = k' then some v else assocGet rest k

/-- Assignment `obj[k] = v` on an object modelled as an association list:
replaces the binding in place or adds it at the end. -/
def assocSet {α : Type} : List (String × α) → String → α → List (String × α)
  | [], k, v => [(k, v)]
  | (k', v') :: rest, k, v =>
    if k = k' then (k, v) :: rest else (k', v') :: assocSet rest k v

/-- The ambient registry consumed by `Overridable`: id to replacement. -/
abbrev Registry (C : Type) := List (String × CompVal C)

/-- `React.createElement(comp, props, children)`: with an explicit child the
`children` prop is set from it, otherwise the props are used as given. -/
def createElement {C : Type} (comp : CompVal C) (props : Props C)
    (children : Option (Value C)) : Element C :=
  match children with
  | some v => Element.mk comp (mergeProps props [("children", v)])
  | none => Element.mk comp props

/-- `React.cloneElement(el, newProps)`: same component, props merged with the
new props winning on collision, as in the React implementation. -/
def cloneElement {C : Type} (el : Element C) (newProps : Props C) : Element C :=
  Element.mk el.comp (mergeProps el.props newProps)

/-- One render of the `Overridable` marker (src/overridable.js, `Overridable`):
extract the single child (throwing on multiple children), then either render
the registry replacement with child props merged with the marker's rest
props, clone the child with its own props, or render nothing. -/
def overridableRender {C : Type} (reg : Registry C) (id : String)
    (children : Option (Value C)) (restProps : Props C) :
    Except RenderError (Option (Element C)) :=
  let childRes : Except RenderError (Option (Element C)) :=
    match children with
    | some v => if truthy v then Except.map some (childrenOnly v) else .ok none
    | none => .ok none
  match childRes with
  | .error e => .error e
  | .ok child =>
    let childProps : Props C :=
      match child with
      | some e => e.props
      | none => []
    match assocGet reg id with
    | some overridden =>
      .ok (some (Element.mk overridden (mergeProps childProps restProps)))
    | none =>
      match child with
      | some e => .ok (some (cloneElement e childProps))
      | none => .ok none

/-- An entry of the `Expandable` registry (or a view of a store entry): a
single non-array replacement, or an array of replacements. -/
inductive RegEntry (α : Type) where
  | single : α → RegEntry α
  | list : List α → RegEntry α
deriving DecidableEq

/-- The ambient registry consumed by `Expandable`. -/
abbrev ExpRegistry (C : Type) := List (String × RegEntry (CompVal C))

/-- Output of one `Expandable` render: either content wrapped in the
dev-mode overlay wrapper `DevModeWrapper` (a transparent passthrough when
dev mode is inactive) carrying the marker id, or nothing. -/
inductive ExpOut (C : Type) where
  | devWrapped : String → List (Element C) → ExpOut C
  | nullOut : ExpOut C

/-- `List.map` with the element index, as `overrides.map((o, i) => ...)`. -/
def mapWithIndexFrom {α β : Type} (f : Nat → α → β) : Nat → List α → List β
  | _, [] => []
  | i, a :: rest => f i a :: mapWithIndexFrom f (i + 1) rest

/-- Index-aware map starting at index 0. -/
def mapWithIndex {α β : Type} (f : Nat → α → β) (l : List α) : List β :=
  mapWithIndexFrom f 0 l

/-- One render of the `Expandable` marker: extract the single child, then on
an override map over the registry entry, building one element per entry with
props `\x7b...childProps, ...restProps, key: id-i\x7d`; the entry is used as an
array unconditionally, so a non-array entry throws (`overrides.map` is not a
function). Without an override, clone the child; with no child, render
nothing. -/
def expandableRender {C : Type} (reg : ExpRegistry C) (id : String)
    (children : Option (Value C)) (restProps : Props C) :
    Except RenderError (ExpOut C) :=
  let childRes : Except RenderError (Option (Element C)) :=
    match children with
    | some v => if truthy v then Except.map some (childrenOnly v) else .ok none
    | none => .ok none
  match childRes with
  | .error e => .error e
  | .ok child =>
    let childProps : Props C :=
      match child with
      | some e => e.props
      | none => []
    match assocGet reg id with
    | some (RegEntry.list overrides) =>
      let elements := mapWithIndex (fun i overridden =>
        Element.mk overridden
          (mergeProps (mergeProps childProps restProps)
            [("key", Value.str (id ++ "-" ++ toString i))])) overrides
      .ok (ExpOut.devWrapped id elements)
    | some (RegEntry.single _) => .error .mapNotAFunction
    | none =>
      match child with
      | some e => .ok (ExpOut.devWrapped id [cloneElement e childProps])
      | none => .ok ExpOut.nullOut

/-- One render of the wrapper returned by `Overridable.component(id, D)`:
look up the id in the ambient registry and render the override when bound
(component values are always truthy, so `overridden || Component` is the
registry value exactly when the id is bound), otherwise the default, with
the incoming props and children passed through. -/
def overriddenComponentRender {C : Type} (reg : Registry C) (id : String)
    (component : CompVal C) (children : Option (Value C)) (props : Props C) :
    Element C :=
  match assocGet reg id with
  | some overridden => createElement overridden props children
  | none => createElement component props children

/-- The `extraProps` argument of `parametrize`: a props object, or a function
from incoming props to a props object. -/
inductive ExtraVal (C : Type) where
  | obj : Props C → ExtraVal C
  | func : (Props C → Props C) → ExtraVal C

/-- The mutable closure state of a `ParametrizedComponent`: the captured
`Component` and `extraProps` variables, both reassigned during render. -/
structure PClosure (C : Type) where
  comp : CompVal C
  extra : ExtraVal C

/-- The `typeof extraProps === 'function'` step: a function-valued
`extraProps` is called on the incoming props, an object is used as is. -/
def resolveExtra {C : Type} (extra : ExtraVal C) (props : Props C) :
    Props C :=
  match extra with
  | .obj e => e
  | .func f => f props

/-- One render of a `ParametrizedComponent` (src/overridable.js,
`parametrize`): resolve a function-valued `extraProps` by calling it on the
incoming props (and keep the result captured), unwrap `Component` to its
`originalComponent` when present, merge props with the extras winning,
destructure `children` out, and create the element. Returns the element and
the updated closure state. -/
def parametrizedRender {C : Type} (st : PClosure C) (props : Props C) :
    Element C × PClosure C :=
  let extraProps : Props C := resolveExtra st.extra props
  let component : CompVal C :=
    match originalComponent st.comp with
    | some orig => orig
    | none => st.comp
  let merged := mergeProps props extraProps
  let children := getProp merged "children"
  let attrProps := removeKey merged "children"
  (createElement component attrProps children,
    { comp := component, extra := ExtraVal.obj extraProps })

/-- `parametrize(Component, extraProps)` itself: builds the initial closure
state of the returned `ParametrizedComponent`. -/
def parametrize {C : Type} (component : CompVal C) (extra : ExtraVal C) :
    PClosure C :=
  { comp := component, extra := extra }

/-- A value held in the store's `components` object: a single component (as
written by `add`), or a reference into the heap of arrays (as written by
`append`). References capture JavaScript array aliasing. -/
inductive StoreVal (α : Type) where
  | single : α → StoreVal α
  | ref : Nat → StoreVal α
deriving DecidableEq

/-- The state of an `OverriddenComponentRepository`: a heap of allocated
arrays and the current `components` object. -/
structure Store (α : Type) where
  heap : List (List α)
  components : List (String × StoreVal α)

/-- `store.add(id, c)`: `this.components[id] = c`. -/
def Store.add {α : Type} (s : Store α) (id : String) (c : α) : Store α :=
  { s with components := assocSet s.components id (StoreVal.single c) }

/-- `store.append(id, c)`: if the entry is not an array, assign a fresh empty
array first; then push onto the (possibly shared) array in place. -/
def Store.append {α : Type} (s : Store α) (id : String) (c : α) : Store α :=
  match assocGet s.components id with
  | some (StoreVal.ref r) =>
    { s with heap := s.heap.set r (s.heap.getD r [] ++ [c]) }
  | _ =>
    { heap := s.heap ++ [[c]],
      components := assocSet s.components id (StoreVal.ref s.heap.length) }

/-- `store.clear()`: `this.components = \x7b\x7d` (a fresh object; the heap
arrays stay allocated, as in JavaScript). -/
def Store.clear {α : Type} (s : Store α) : Store α :=
  { s with components := [] }

/-- `store.get(id)`. -/
def Store.get {α : Type} (s : Store α) (id : String) : Option (StoreVal α) :=
  assocGet s.components id

/-- `store.getAll()`: the shallow copy `\x7b...this.components\x7d` — a new
top-level object whose entries still share the heap references. -/
def Store.getAll {α : Type} (s : Store α) : List (String × StoreVal α) :=
  s.components

/-- Reading one entry of a snapshot under a (possibly later) heap:
dereferences array entries, exposing any in-place mutation of the shared
array. -/
def snapView {α : Type} (heap : List (List α))
    (snap : List (String × StoreVal α)) (id : String) : Option (RegEntry α) :=
  match assocGet snap id with
  | some (StoreVal.single c) => some (RegEntry.single c)
  | some (StoreVal.ref r) => some (RegEntry.list (heap.getD r []))
  | none => none

/-- The current value of a store entry, dereferenced. -/
def Store.viewEntry {α : Type} (s : Store α) (id : String) :
    Option (RegEntry α) :=
  snapView s.heap s.components id

/-- Well-formedness of a store: every heap reference in `components` points
inside the heap. Holds for every store reachable from a fresh one. -/
def Store.WF {α : Type} (s : Store α) : Prop :=
  ∀ id r, assocGet s.components id = some (StoreVal.ref r) → r < s.heap.length

/-- Sample registry: id `x` bound to the replacement component `0`. -/
def regW1 : Registry Nat := [("x", CompVal.plain 0)]

/-- Sample child element with props `a = 1, b = 3`. -/
def childW1 : Element Nat :=
  Element.mk (CompVal.plain 1) [("a", Value.num 1), ("b", Value.num 3)]

/-- Sample pass-through props `a = 2`. -/
def restW1 : Props Nat := [("a", Value.num 2)]

/-- Sample extra props `a = 1` for `parametrize`. -/
def extraW4 : Props Nat := [("a", Value.num 1)]

/-- Sample incoming props `a = 2, b = 3` with a child, for `parametrize`. -/
def propsW4 : Props Nat :=
  [("a", Value.num 2), ("b", Value.num 3), ("children", Value.node childW1)]

/-- Sample store state: one appended entry under `x`, i.e. one heap array
`[0]` referenced by the `components` object. -/
def storeW8 : Store Nat := Store.mk [[0]] [("x", StoreVal.ref 0)]

theorem getProp_append {C : Type} (a b : Props C) (k : String) :
    getProp (a ++ b) k = overrideOpt (getProp a k) (getProp b k) := by
  induction a with
  | nil => cases h : getProp b k <;> simp [getProp, overrideOpt, h]
  | cons hd tl ih =>
    cases hd with
    | mk k' v =>
      cases hb : getProp b k <;> cases ht : getProp tl k <;>
        simp [getProp, overrideOpt, ih, hb, ht]

theorem getProp_mergeProps {C : Type} (a b : Props C) (k : String) :
    getProp (mergeProps a b) k = overrideOpt (getProp a k) (getProp b k) :=
  getProp_append a b k

theorem overrideOpt_self {α : Type} (o : Option α) : overrideOpt o o = o := by
  cases o <;> rfl

theorem getProp_removeKey_self {C : Type} (p : Props C) (k : String) :
    getProp (removeKey p k) k = none := by
  induction p with
  | nil => rfl
  | cons hd tl ih =>
    cases hd with
    | mk k' v =>
      by_cases hk : k' = k
      · simpa [removeKey, List.filter_cons, hk] using ih
      · simp only [removeKey, List.filter_cons] at ih ⊢
        simp only [bne_iff_ne, ne_eq, hk, not_false_iff, if_true]
        simp [getProp, ih, Ne.symm hk]

theorem getProp_removeKey_ne {C : Type} (p : Props C) (k k' : String)
    (h : k ≠ k') : getProp (removeKey p k') k = getProp p k := by
  induction p with
  | nil => rfl
  | cons hd tl ih =>
    cases hd with
    | mk k0 v =>
      by_cases hk : k0 = k'
      · simp only [removeKey, List.filter_cons] at ih ⊢
        simp only [hk, bne_self_eq_false, Bool.false_eq_true, if_false, ih]
        cases ht : getProp tl k <;> simp [getProp, ht, hk, h]
      · simp only [removeKey, List.filter_cons] at ih ⊢
        simp only [bne_iff_ne, ne_eq, hk, not_false_iff, if_true]
        simp [getProp, ih]

theorem assocGet_assocSet_self {α : Type} (m : List (String × α))
    (k : String) (v : α) : assocGet (assocSet m k v) k = some v := by
  induction m with
  | nil => simp [assocGet, assocSet]
  | cons hd tl ih =>
    cases hd with
    | mk k' v' =>
      by_cases hk : k = k' <;> simp [assocGet, assocSet, hk, ih]

theorem assocGet_assocSet_ne {α : Type} (m : List (String × α))
    (k k' : String) (v : α) (h : k ≠ k') :
    assocGet (assocSet m k' v) k = assocGet m k := by
  induction m with
  | nil => simp [assocGet, assocSet, h]
  | cons hd tl ih =>
    cases hd with
    | mk k0 v0 =>
      by_cases hk : k' = k0
      · subst hk
        simp [assocGet, assocSet, h]
      · simp [assocGet, assocSet, hk, ih]

theorem store_append_on_ref {α : Type} (s : Store α) (id : String) (c : α)
    (r : Nat) (h : assocGet s.components id = some (StoreVal.ref r)) :
    Store.append s id c =
      Store.mk (s.heap.set r (s.heap.getD r [] ++ [c])) s.components := by
  simp [Store.append, h]

theorem store_append_on_nonref {α : Type} (s : Store α) (id : String)
    (c : α) (h : ∀ r, assocGet s.components id ≠ some (StoreVal.ref r)) :
    Store.append s id c =
      Store.mk (s.heap ++ [[c]])
        (assocSet s.components id (StoreVal.ref s.heap.length)) := by
  cases hx : assocGet s.components id with
  | none => simp [Store.append, hx]
  | some sv =>
    cases sv with
    | single a => simp [Store.append, hx]
    | ref r => exact absurd hx (h r)

theorem getD_snoc_length {α : Type} (l : List α) (x d : α) :
    (l ++ [x]).getD l.length d = x := by
  rw [List.getD_append_right l [x] d l.length (le_refl _), Nat.sub_self]
  rfl

theorem getD_set_self {α : Type} (l : List α) (n : Nat) (x d : α)
    (h : n < l.length) : (l.set n x).getD n d = x := by
  rw [List.getD_eq_getElem _ _ (by simpa using h)]
  simp [List.getElem_set]

/-- C1 (claim): with `id` bound to a single replacement `R` in the ambient
registry, the `Overridable` marker with one child renders `R` with the merge
of the child's props and the marker's pass-through props, the pass-through
value winning on every key collision. -/
theorem overridable_override_merges_props {C : Type} (reg : Registry C)
    (id : String) (R : CompVal C) (child : Element C) (restProps : Props C)
    (h : assocGet reg id = some R) :
    overridableRender reg id (some (Value.node child)) restProps =
      Except.ok (some (Element.mk R (mergeProps child.props restProps)))
  ∧ ∀ k, getProp (mergeProps child.props restProps) k =
      overrideOpt (getProp child.props k) (getProp restProps k) := by
  refine ⟨?_, fun k => getProp_mergeProps child.props restProps k⟩
  simp [overridableRender, truthy, childrenOnly, Except.map, h]

/-- Witness for C1: registry `x := 0`, child props `a = 1, b = 3`,
pass-through `a = 2`; the override renders with the merged props, and the
colliding key `a` takes the pass-through value `2`. -/
theorem overridable_override_merges_props_witness :
    assocGet regW1 "x" = some (CompVal.plain 0)
  ∧ overridableRender regW1 "x" (some (Value.node childW1)) restW1 =
      Except.ok (some (Element.mk (CompVal.plain 0)
        (mergeProps childW1.props restW1)))
  ∧ getProp (mergeProps childW1.props restW1) "a" = some (Value.num 2)
  ∧ getProp (mergeProps childW1.props restW1) "b" = some (Value.num 3) :=
  ⟨rfl,
   (overridable_override_merges_props regW1 "x" (CompVal.plain 0) childW1
     restW1 rfl).1,
   ((overridable_override_merges_props regW1 "x" (CompVal.plain 0) childW1
     restW1 rfl).2 "a").trans rfl,
   ((overridable_override_merges_props regW1 "x" (CompVal.plain 0) childW1
     restW1 rfl).2 "b").trans rfl⟩

/-- C3 (claim): with `id` unbound in the ambient registry, the `Overridable`
marker with one child renders a clone of that child with the same component
and extensionally unchanged props, and the marker's own pass-through props
play no role on this path. -/
theorem overridable_identity_no_override {C : Type} (reg : Registry C)
    (id : String) (child : Element C) (restProps : Props C)
    (h : assocGet reg id = none) :
    overridableRender reg id (some (Value.node child)) restProps =
      Except.ok (some (cloneElement child child.props))
  ∧ (cloneElement child child.props).comp = child.comp
  ∧ (∀ k, getProp (cloneElement child child.props).props k =
      getProp child.props k)
  ∧ ∀ restProps2,
      overridableRender reg id (some (Value.node child)) restProps2 =
        overridableRender reg id (some (Value.node child)) restProps := by
  refine ⟨?_, rfl, fun k => ?_, fun restProps2 => ?_⟩
  · simp [overridableRender, truthy, childrenOnly, Except.map, h]
  · rw [show (cloneElement child child.props).props =
        mergeProps child.props child.props from rfl]
    rw [getProp_mergeProps, overrideOpt_self]
  · simp [overridableRender, truthy, childrenOnly, Except.map, h]

/-- Witness for C3: empty registry, child props `a = 1, b = 3`, pass-through
`a = 2`; the clone keeps the child's component and props and the `a = 2`
pass-through is not applied. -/
theorem overridable_identity_no_override_witness :
    assocGet ([] : Registry Nat) "x" = none
  ∧ overridableRender ([] : Registry Nat) "x" (some (Value.node childW1))
      restW1 = Except.ok (some (cloneElement childW1 childW1.props))
  ∧ getProp (cloneElement childW1 childW1.props).props "a" =
      some (Value.num 1) :=
  ⟨rfl,
   (overridable_identity_no_override [] "x" childW1 restW1 rfl).1,
   ((overridable_identity_no_override [] "x" childW1 restW1 rfl).2.2.1
     "a").trans rfl⟩

/-- C7 (claim): a marker (`Overridable` or `Expandable`) given more than one
immediate child throws the single-child violation of `React.Children.only`
and produces no rendered output, whatever the ambient registries contain. -/
theorem marker_multiple_children_throws {C : Type} (oreg : Registry C)
    (ereg : ExpRegistry C) (id : String) (e1 e2 : Element C)
    (rest : List (Element C)) (restProps : Props C) :
    overridableRender oreg id (some (Value.nodeList (e1 :: e2 :: rest)))
      restProps = Except.error RenderError.multipleChildren
  ∧ expandableRender ereg id (some (Value.nodeList (e1 :: e2 :: rest)))
      restProps = Except.error RenderError.multipleChildren :=
  ⟨rfl, rfl⟩

/-- C2 (claim): the wrapper from `Overridable.component(id, D)` renders the
registry's replacement with the incoming props and children when `id` is
bound in the ambient registry, and renders the default `D` with the same
props and children when it is not (in particular under the context default,
the empty mapping). -/
theorem overridable_component_resolution {C : Type} (reg : Registry C)
    (id : String) (D N : CompVal C) (children : Option (Value C))
    (props : Props C) :
    (assocGet reg id = some N →
      overriddenComponentRender reg id D children props =
        createElement N props children)
  ∧ (assocGet reg id = none →
      overriddenComponentRender reg id D children props =
        createElement D props children) := by
  constructor <;> intro h <;> simp [overriddenComponentRender, h]

/-- Witness for C2: with `x := 0` in the registry the wrapper renders the
replacement `0`; with the empty registry it renders the default `5`; props
and children pass through in both cases. -/
theorem overridable_component_resolution_witness :
    overriddenComponentRender regW1 "x" (CompVal.plain 5)
      (some (Value.node childW1)) restW1 =
      createElement (CompVal.plain 0) restW1 (some (Value.node childW1))
  ∧ overriddenComponentRender ([] : Registry Nat) "x" (CompVal.plain 5)
      (some (Value.node childW1)) restW1 =
      createElement (CompVal.plain 5) restW1 (some (Value.node childW1)) :=
  ⟨(overridable_component_resolution regW1 "x" (CompVal.plain 5)
      (CompVal.plain 0) (some (Value.node childW1)) restW1).1 rfl,
   (overridable_component_resolution [] "x" (CompVal.plain 5)
      (CompVal.plain 0) (some (Value.node childW1)) restW1).2 rfl⟩

theorem createElement_comp {C : Type} (c : CompVal C) (p : Props C)
    (ch : Option (Value C)) : (createElement c p ch).comp = c := by
  cases ch <;> rfl

theorem parametrizedRender_props_spec {C : Type} (st : PClosure C)
    (props : Props C) (k : String) :
    getProp ((parametrizedRender st props).1).props k =
      overrideOpt (getProp props k)
        (getProp (resolveExtra st.extra props) k) := by
  rw [← getProp_mergeProps]
  simp only [parametrizedRender]
  by_cases hk : k = "children"
  · subst hk
    cases hc : getProp (mergeProps props (resolveExtra st.extra props))
        "children" with
    | none =>
      simp [createElement, hc, Element.props, getProp_removeKey_self]
    | some v =>
      simp only [createElement, hc, Element.props]
      rw [getProp_mergeProps, getProp_removeKey_self]
      simp [getProp, overrideOpt]
  · cases hc : getProp (mergeProps props (resolveExtra st.extra props))
        "children" with
    | none =>
      simp [createElement, hc, Element.props, getProp_removeKey_ne _ _ _ hk]
    | some v =>
      simp only [createElement, hc, Element.props]
      rw [getProp_mergeProps, getProp_removeKey_ne _ _ _ hk]
      simp [getProp, overrideOpt, hk]

/-- C4 (claim): a `parametrize(T, extra)` wrapper over a plain target `T`
renders `T` with the incoming props merged with `extra`, `extra` winning on
every key collision; in particular `children` passes through when `extra`
does not bind it. -/
theorem parametrize_extra_wins {C : Type} (T : CompVal C)
    (extra props : Props C) :
    (∀ k,
      getProp
        ((parametrizedRender (parametrize T (ExtraVal.obj extra))
          props).1).props k =
      overrideOpt (getProp props k) (getProp extra k))
  ∧ (originalComponent T = none →
      ((parametrizedRender (parametrize T (ExtraVal.obj extra))
        props).1).comp = T) := by
  constructor
  · intro k
    simpa [resolveExtra, parametrize] using
      parametrizedRender_props_spec (parametrize T (ExtraVal.obj extra))
        props k
  · intro hT
    simp [parametrizedRender, parametrize, hT, createElement_comp]

/-- Witness for C4: `parametrize(T, \x7ba: 1\x7d)` rendered with incoming props
`\x7ba: 2, b: 3\x7d` (plus a child) yields `a = 1`, `b = 3`, and the child
passes through unchanged. -/
theorem parametrize_extra_wins_witness :
    getProp ((parametrizedRender (parametrize (CompVal.plain 7)
        (ExtraVal.obj extraW4)) propsW4).1).props "a" = some (Value.num 1)
  ∧ getProp ((parametrizedRender (parametrize (CompVal.plain 7)
        (ExtraVal.obj extraW4)) propsW4).1).props "b" = some (Value.num 3)
  ∧ getProp ((parametrizedRender (parametrize (CompVal.plain 7)
        (ExtraVal.obj extraW4)) propsW4).1).props "children" =
      some (Value.node childW1)
  ∧ ((parametrizedRender (parametrize (CompVal.plain 7)
        (ExtraVal.obj extraW4)) propsW4).1).comp = CompVal.plain 7 :=
  ⟨((parametrize_extra_wins (CompVal.plain 7) extraW4 propsW4).1
      "a").trans rfl,
   ((parametrize_extra_wins (CompVal.plain 7) extraW4 propsW4).1
      "b").trans rfl,
   ((parametrize_extra_wins (CompVal.plain 7) extraW4 propsW4).1
      "children").trans rfl,
   (parametrize_extra_wins (CompVal.plain 7) extraW4 propsW4).2 rfl⟩

/-- C5 (claim): `parametrize` applied to the wrapper made by
`Overridable.component(id, D)` recovers the true default `D` through the
`originalComponent` back-reference and renders `D` with the merged props;
the render consults no registry at all, so the wrapper's own resolution
logic is never re-entered, whatever ambient scope surrounds it. -/
theorem parametrize_unwraps_wrapper {C : Type} (id : String) (D : CompVal C)
    (extra props : Props C) :
    originalComponent (CompVal.wrapped id D) = some D
  ∧ ((parametrizedRender (parametrize (CompVal.wrapped id D)
        (ExtraVal.obj extra)) props).1).comp = D
  ∧ ∀ k,
      getProp
        ((parametrizedRender (parametrize (CompVal.wrapped id D)
          (ExtraVal.obj extra)) props).1).props k =
      overrideOpt (getProp props k) (getProp extra k) := by
  refine ⟨rfl, ?_, fun k => ?_⟩
  · simp [parametrizedRender, parametrize, originalComponent,
      createElement_comp]
  · simpa [resolveExtra, parametrize] using
      parametrizedRender_props_spec
        (parametrize (CompVal.wrapped id D) (ExtraVal.obj extra)) props k

/-- C9 (claim): when the `extra` argument of `parametrize` is a function, the
first render calls it on that render's incoming props and permanently
overwrites the captured variable with the result; a later render with
different incoming props still uses the first result and keeps it, so a
changed function result is never reflected. -/
theorem parametrize_function_memoized {C : Type} (T : CompVal C)
    (f : Props C → Props C) (p0 p1 : Props C) :
    ((parametrizedRender (parametrize T (ExtraVal.func f)) p0).2).extra =
      ExtraVal.obj (f p0)
  ∧ ((parametrizedRender
        ((parametrizedRender (parametrize T (ExtraVal.func f)) p0).2)
        p1).2).extra = ExtraVal.obj (f p0)
  ∧ ∀ k,
      getProp
        ((parametrizedRender
          ((parametrizedRender (parametrize T (ExtraVal.func f)) p0).2)
          p1).1).props k =
      overrideOpt (getProp p1 k) (getProp (f p0) k) := by
  refine ⟨rfl, rfl, fun k => ?_⟩
  simpa [resolveExtra, parametrize, parametrizedRender] using
    parametrizedRender_props_spec
      ((parametrizedRender (parametrize T (ExtraVal.func f)) p0).2) p1 k

/-- C6 (claim): `append` on an identifier with no prior store entry leaves a
one-element list `[R]`; a second `append` leaves `[R, S]`; and when the
`Expandable` marker resolves an identifier bound to that list it renders one
element per replacement, in list order, each keyed `id-index`. -/
theorem store_append_accumulates {C : Type} (s : Store (CompVal C))
    (id : String) (R S : CompVal C)
    (h : assocGet s.components id = none) :
    (Store.append s id R).viewEntry id = some (RegEntry.list [R])
  ∧ (Store.append (Store.append s id R) id S).viewEntry id =
      some (RegEntry.list [R, S])
  ∧ ∀ (ereg : ExpRegistry C) (child : Element C) (restProps : Props C),
      assocGet ereg id = some (RegEntry.list [R, S]) →
      expandableRender ereg id (some (Value.node child)) restProps =
        Except.ok (ExpOut.devWrapped id
          [Element.mk R (mergeProps (mergeProps child.props restProps)
            [("key", Value.str (id ++ "-" ++ toString 0))]),
           Element.mk S (mergeProps (mergeProps child.props restProps)
            [("key", Value.str (id ++ "-" ++ toString 1))])]) := by
  have h1 : Store.append s id R =
      Store.mk (s.heap ++ [[R]])
        (assocSet s.components id (StoreVal.ref s.heap.length)) := by
    simp [Store.append, h]
  have h2 : assocGet (Store.append s id R).components id =
      some (StoreVal.ref s.heap.length) := by
    rw [h1]
    exact assocGet_assocSet_self s.components id _
  refine ⟨?_, ?_, fun ereg child restProps hereg => ?_⟩
  · rw [Store.viewEntry, h1, snapView]
    simp [assocGet_assocSet_self, getD_snoc_length]
  · rw [h1,
      store_append_on_ref _ id S s.heap.length
        (assocGet_assocSet_self s.components id _),
      Store.viewEntry, snapView]
    simp only [assocGet_assocSet_self]
    rw [getD_set_self]
    · rw [getD_snoc_length]
      rfl
    · simp
  · simp [expandableRender, truthy, childrenOnly, Except.map, hereg,
      mapWithIndex, mapWithIndexFrom]

/-- Witness for C6: starting from the empty store, `append("x", 0)` then
`append("x", 1)` leaves the list `[0, 1]`, and `Expandable` renders the two
replacements in order with keys `x-0` and `x-1`. -/
theorem store_append_accumulates_witness :
    assocGet (Store.mk [] [] : Store (CompVal Nat)).components "x" = none
  ∧ (Store.append (Store.mk [] [] : Store (CompVal Nat)) "x"
      (CompVal.plain 0)).viewEntry "x" =
      some (RegEntry.list [CompVal.plain 0])
  ∧ (Store.append (Store.append (Store.mk [] [] : Store (CompVal Nat)) "x"
      (CompVal.plain 0)) "x" (CompVal.plain 1)).viewEntry "x" =
      some (RegEntry.list [CompVal.plain 0, CompVal.plain 1])
  ∧ expandableRender
      [("x", RegEntry.list [CompVal.plain 0, CompVal.plain 1])] "x"
      (some (Value.node childW1)) restW1 =
      Except.ok (ExpOut.devWrapped "x"
        [Element.mk (CompVal.plain 0)
          (mergeProps (mergeProps childW1.props restW1)
            [("key", Value.str ("x" ++ "-" ++ toString 0))]),
         Element.mk (CompVal.plain 1)
          (mergeProps (mergeProps childW1.props restW1)
            [("key", Value.str ("x" ++ "-" ++ toString 1))])]) :=
  ⟨rfl,
   (store_append_accumulates (Store.mk [] []) "x" (CompVal.plain 0)
     (CompVal.plain 1) rfl).1,
   (store_append_accumulates (Store.mk [] []) "x" (CompVal.plain 0)
     (CompVal.plain 1) rfl).2.1,
   (store_append_accumulates (Store.mk [] []) "x" (CompVal.plain 0)
     (CompVal.plain 1) rfl).2.2
     [("x", RegEntry.list [CompVal.plain 0, CompVal.plain 1])]
     childW1 restW1 rfl⟩

/-- C8 counterexample: take the store after `append("x", 1)` and the
snapshot `getAll()`; the subsequent mutation `append("x", 2)` pushes onto
the array shared with the snapshot, so reading the earlier snapshot now
yields `[1, 2]` where it yielded `[1]` — the mutation retroactively changed
the snapshot, contradicting the claim. -/
theorem store_snapshot_mutation_counterexample :
    snapView (Store.append (Store.append (Store.mk [] [] : Store Nat) "x" 1)
        "x" 2).heap
      (Store.getAll (Store.append (Store.mk [] [] : Store Nat) "x" 1)) "x"
      = some (RegEntry.list [1, 2])
  ∧ snapView (Store.append (Store.mk [] [] : Store Nat) "x" 1).heap
      (Store.getAll (Store.append (Store.mk [] [] : Store Nat) "x" 1)) "x"
      = some (RegEntry.list [1])
  ∧ some (RegEntry.list [1, 2]) ≠ some (RegEntry.list ([1] : List Nat)) :=
  ⟨rfl, rfl, by decide⟩

/-- C8 (amended): `getAll`'s shallow copy protects an earlier snapshot from
`add`, from `clear`, and from `append` on an identifier whose current entry
is not already a list; only `append` onto an existing list mutates the
shared array in place and shows through the snapshot. -/
theorem store_snapshot_stability_amended {α : Type} (s : Store α)
    (hwf : Store.WF s) (id : String) (c : α) :
    (∀ k, snapView (Store.add s id c).heap (Store.getAll s) k =
        snapView s.heap (Store.getAll s) k)
  ∧ (∀ k, snapView (Store.clear s).heap (Store.getAll s) k =
        snapView s.heap (Store.getAll s) k)
  ∧ ((∀ r, assocGet s.components id ≠ some (StoreVal.ref r)) →
      ∀ k, snapView (Store.append s id c).heap (Store.getAll s) k =
        snapView s.heap (Store.getAll s) k) := by
  refine ⟨fun k => rfl, fun k => rfl, fun hne k => ?_⟩
  have happ : (Store.append s id c).heap = s.heap ++ [[c]] := by
    rw [store_append_on_nonref s id c hne]
  rw [happ]
  simp only [snapView, Store.getAll]
  cases hk : assocGet s.components k with
  | none => rfl
  | some sv =>
    cases sv with
    | single a => rfl
    | ref r =>
      show some (RegEntry.list ((s.heap ++ [[c]]).getD r [])) =
        some (RegEntry.list (s.heap.getD r []))
      rw [List.getD_append s.heap [[c]] [] r (hwf k r hk)]

/-- Witness for C8 (amended): on the store holding the appended list `[0]`
under `x`, an `add` under `x`, a `clear`, and an `append` under the fresh
identifier `y` all leave the earlier snapshot's reading of `x` intact. -/
theorem store_snapshot_stability_amended_witness :
    snapView (Store.add storeW8 "x" 5).heap (Store.getAll storeW8) "x" =
      snapView storeW8.heap (Store.getAll storeW8) "x"
  ∧ snapView (Store.clear storeW8).heap (Store.getAll storeW8) "x" =
      snapView storeW8.heap (Store.getAll storeW8) "x"
  ∧ snapView (Store.append storeW8 "y" 7).heap (Store.getAll storeW8) "x" =
      snapView storeW8.heap (Store.getAll storeW8) "x" := by
  have hwf : Store.WF storeW8 := by
    intro i r hir
    by_cases hi : i = "x"
    · subst hi
      simp [storeW8, assocGet] at hir
      simp [storeW8, ← hir]
    · simp [storeW8, assocGet, hi] at hir
  have hne : ∀ r, assocGet storeW8.components "y" ≠
      some (StoreVal.ref r) := by
    intro r hcon
    simp [storeW8, assocGet] at hcon
  exact ⟨(store_snapshot_stability_amended storeW8 hwf "x" 5).1 "x",
    (store_snapshot_stability_amended storeW8 hwf "x" 5).2.1 "x",
    (store_snapshot_stability_amended storeW8 hwf "y" 7).2.2 hne "x"⟩

/-- C10 (claim): when the `Expandable` registry entry for a bound identifier
is a single non-array replacement — exactly what the store's `add` writes —
the override path still maps over it as an array, so the render throws
rather than rendering the replacement or falling back to the child. -/
theorem expandable_single_entry_fails {C : Type} (ereg : ExpRegistry C)
    (id : String) (R : CompVal C) (child : Element C) (restProps : Props C)
    (h : assocGet ereg id = some (RegEntry.single R)) :
    expandableRender ereg id (some (Value.node child)) restProps =
      Except.error RenderError.mapNotAFunction
  ∧ expandableRender ereg id none restProps =
      Except.error RenderError.mapNotAFunction
  ∧ ∀ (s : Store (CompVal C)),
      (Store.add s id R).viewEntry id = some (RegEntry.single R) := by
  refine ⟨?_, ?_, fun s => ?_⟩
  · simp [expandableRender, truthy, childrenOnly, Except.map, h]
  · simp [expandableRender, h]
  · simp [Store.add, Store.viewEntry, snapView, assocGet_assocSet_self]

/-- Witness for C10: with `x` bound to the single replacement `0` (as
`add("x", 0)` leaves it), the `Expandable` marker for `x` with one child
throws the map error. -/
theorem expandable_single_entry_fails_witness :
    assocGet [("x", RegEntry.single (CompVal.plain (0 : Nat)))] "x" =
      some (RegEntry.single (CompVal.plain 0))
  ∧ expandableRender [("x", RegEntry.single (CompVal.plain (0 : Nat)))] "x"
      (some (Value.node childW1)) restW1 =
      Except.error RenderError.mapNotAFunction
  ∧ (Store.add (Store.mk [] [] : Store (CompVal Nat)) "x"
      (CompVal.plain 0)).viewEntry "x" =
      some (RegEntry.single (CompVal.plain 0)) :=
  ⟨rfl,
   (expandable_single_entry_fails
     [("x", RegEntry.single (CompVal.plain 0))] "x" (CompVal.plain 0)
     childW1 restW1 rfl).1,
   (expandable_single_entry_fails
     [("x", RegEntry.single (CompVal.plain 0))] "x" (CompVal.plain 0)
     childW1 restW1 rfl).2.2 (Store.mk [] [])⟩
